import Mathlib

/-!
Verification of crab-dlna core components against their natural-language
specification.  Each Rust function relevant to the checked properties is
shallowly embedded as an executable Lean definition, translated from the
source; quantities that Rust represents as machine integers (`u64`) are
modelled as `Nat`, with explicit `% 2 ^ 64` at the points where the Rust
arithmetic can wrap and an explicit `< 2 ^ 64` bound where Rust parsing
rejects out-of-range values.
-/

namespace CrabDlna

/-! ## String-parsing primitives (models of Rust std behavior)

The repository calls `str::split`, `u64::from_str` and `f64::from_str`
from the Rust standard library.  These are modelled here over `List Char`.
-/

/-- Decimal value of a list of digit characters (most significant first),
as computed by the usual accumulate-by-ten loop. -/
def digitsVal (cs : List Char) : Nat :=
  cs.foldl (fun a c => a * 10 + (c.toNat - 48)) 0

/-- Model of Rust `str::split` on a character predicate: splits a character
list at every separator, keeping empty chunks, so the empty input yields
one empty chunk and a lone separator yields two empty chunks. -/
def splitChars (p : Char → Bool) : List Char → List (List Char)
  | [] => [[]]
  | c :: rest =>
    let r := splitChars p rest
    if p c then [] :: r
    else (c :: r.headD []) :: r.drop 1

/-- Model of Rust `u64::from_str`: an optional leading plus sign followed by
at least one decimal digit, whose value must fit in a `u64` (otherwise the
parse fails with an overflow error). -/
def parseU64 (cs : List Char) : Option Nat :=
  let ds := if cs.head? = some '+' then cs.drop 1 else cs
  if ds.isEmpty then none
  else if ds.all Char.isDigit then
    let v := digitsVal ds
    if v < 2 ^ 64 then some v else none
  else none

/-- Model of Rust `f64::from_str` restricted to simple unsigned decimal
literals: an optional leading plus sign, one or more integer digits and an
optional fractional part after a dot.  The result is kept exactly as the
integer part together with the fraction digits (the values reached by the
verified claims are small integers, for which the `f64` round trip in the
source is exact).  Exotic float syntax (signs, exponents, infinities) is
outside this model and treated as a parse failure. -/
def parseDecimal (cs : List Char) : Option (Nat × List Char) :=
  let ds := if cs.head? = some '+' then cs.drop 1 else cs
  let intDs := ds.takeWhile Char.isDigit
  let rest := ds.dropWhile Char.isDigit
  if intDs.isEmpty then none
  else
    match rest with
    | [] => some (digitsVal intDs, [])
    | c :: fds =>
      if c = '.' && fds.all Char.isDigit then some (digitsVal intDs, fds) else none

/-- Milliseconds contributed by a fraction-digit list: the floor of
`0.f₁f₂f₃… * 1000`, i.e. the value of the first three fraction digits
padded on the right with zeros. -/
def fracMillis (fds : List Char) : Nat :=
  digitsVal (fds.take 3 ++ List.replicate (3 - fds.length) '0')

/-! ## `src/utils/time.rs` -/

/-- Embeds `parse_dlna_time_format` (src/utils/time.rs): split on `:` into
exactly three parts, parse hours and minutes as `u64`, seconds as `f64`,
and return `((hours*3600 + minutes*60 + seconds) * 1000) as u64`.  The
float arithmetic is modelled exactly over rationals, hence the integer
part/fraction split; the final `as u64` cast saturates. -/
def parse_dlna_time_format (cs : List Char) : Option Nat :=
  match splitChars (fun c => c == ':') cs with
  | [hs, ms, ss] =>
    match parseU64 hs, parseU64 ms, parseDecimal ss with
    | some hours, some minutes, some (secInt, secFrac) =>
      some (Nat.min ((hours * 3600 + minutes * 60 + secInt) * 1000 + fracMillis secFrac)
        (2 ^ 64 - 1))
    | _, _, _ => none
  | _ => none

/-- Embeds `parse_subtitle_time_format` (src/utils/time.rs): split on `,`
and `:` into exactly four parts, parse all four as `u64` and return
`hours*3600000 + minutes*60000 + seconds*1000 + milliseconds`; the sum is
`u64` arithmetic, hence the `% 2 ^ 64`. -/
def parse_subtitle_time_format (cs : List Char) : Option Nat :=
  match splitChars (fun c => c == ',' || c == ':') cs with
  | [hs, ms, ss, mss] =>
    match parseU64 hs, parseU64 ms, parseU64 ss, parseU64 mss with
    | some hours, some minutes, some seconds, some milliseconds =>
      some ((hours * 3600000 + minutes * 60000 + seconds * 1000 + milliseconds) % 2 ^ 64)
    | _, _, _, _ => none
  | _ => none

/-- Embeds `time_str_to_milliseconds` (src/utils/time.rs): try the DLNA
format first, then the subtitle format, and fall back to `0`. -/
def time_str_to_milliseconds (s : String) : Nat :=
  match parse_dlna_time_format s.toList with
  | some ms => ms
  | none =>
    match parse_subtitle_time_format s.toList with
    | some ms => ms
    | none => 0


/-! ## `src/utils/network.rs` — retry with exponential backoff -/

/-- Embeds `MAX_NETWORK_RETRIES` (src/config/constants.rs). -/
def MAX_NETWORK_RETRIES : Nat := 3

/-- The backoff delay slept before retrying after a failed attempt:
`Duration::from_millis(100 * (1 << (attempt - 1)))`. -/
def backoffDelayMs (attempt : Nat) : Nat :=
  100 * 2 ^ (attempt - 1)

/-- One run of the retry wrapper, observed as the returned value together
with the number of times the operation was invoked and the list of backoff
delays slept, in order. -/
structure RetryTrace (E A : Type) where
  result : Except (Option E) A
  calls : Nat
  delays : List Nat
  deriving Repr

/-- Loop body of `retry_with_backoff` (src/utils/network.rs).  The stateful
`FnMut` operation is modelled by the sequence of results of its successive
invocations, indexed by the 1-based attempt number.  `fuel` is the number of
loop iterations still to run (`maxAttempts + 1 - attempt`); at `fuel = 0`
the loop has finished all attempts and returns `Err(last_error.unwrap())` —
the `Option E` error type records that `last_error` starts as `None`, so the
`none` outcome corresponds to the unreachable unwrap panic when no attempt
ever ran. -/
def retryGo (op : Nat → Except E A) (maxAttempts : Nat) :
    Nat → Option E → Nat → RetryTrace E A
  | _, lastError, 0 => ⟨Except.error lastError, 0, []⟩
  | attempt, _, fuel + 1 =>
    match op attempt with
    | Except.ok r => ⟨Except.ok r, 1, []⟩
    | Except.error e =>
      let rest := retryGo op maxAttempts (attempt + 1) (some e) fuel
      if attempt < maxAttempts then
        ⟨rest.result, rest.calls + 1, backoffDelayMs attempt :: rest.delays⟩
      else
        ⟨rest.result, rest.calls + 1, rest.delays⟩

/-- Embeds `retry_with_backoff` (src/utils/network.rs): run the operation
for attempts `1..=MAX_NETWORK_RETRIES`, returning the first success
immediately, sleeping `backoffDelayMs attempt` between consecutive attempts
and returning the last error unchanged after the final failure. -/
def retry_with_backoff (op : Nat → Except E A) : RetryTrace E A :=
  retryGo op MAX_NETWORK_RETRIES 1 none MAX_NETWORK_RETRIES

/-! ## `src/media/playlist.rs` / `src/playlist.rs` — playlist -/

/-- Embeds the `Playlist` struct (src/media/playlist.rs): a file queue, an
optional cursor, and a loop flag.  File paths are modelled as strings.  The
variant in src/playlist.rs adds an unused `shuffle` flag and has the same
`next`/`previous`/`reset`/`add_file` logic. -/
structure Playlist where
  files : List String
  current_index : Option Nat
  loop_playlist : Bool
  deriving Repr, DecidableEq

/-- Embeds `Playlist::add_file`: pushes a path to the back of the queue. -/
def addFile (p : Playlist) (f : String) : Playlist :=
  { p with files := p.files ++ [f] }

/-- Embeds `Playlist::current_file`: `current_index.and_then(|i| files.get(i))`. -/
def currentFile (p : Playlist) : Option String :=
  p.current_index.bind fun i => p.files[i]?

/-- Embeds `Playlist::next_file` (src/media/playlist.rs; identical logic to
`Playlist::next` in src/playlist.rs): returns the produced value together
with the updated playlist — the early `return None` paths leave the
playlist unchanged. -/
def nextFile (p : Playlist) : Option String × Playlist :=
  if p.files.isEmpty then (none, p)
  else
    match p.current_index with
    | none =>
      let p1 := { p with current_index := some 0 }
      (currentFile p1, p1)
    | some index =>
      let nextIndex := index + 1
      if nextIndex ≥ p.files.length then
        if p.loop_playlist then
          let p1 := { p with current_index := some 0 }
          (currentFile p1, p1)
        else (none, p)
      else
        let p1 := { p with current_index := some nextIndex }
        (currentFile p1, p1)

/-- Embeds `Playlist::previous_file` (src/media/playlist.rs; identical
logic to `Playlist::previous` in src/playlist.rs). -/
def previousFile (p : Playlist) : Option String × Playlist :=
  if p.files.isEmpty then (none, p)
  else
    match p.current_index with
    | none =>
      let p1 := { p with current_index := some (p.files.length - 1) }
      (currentFile p1, p1)
    | some index =>
      if index = 0 then
        if p.loop_playlist then
          let p1 := { p with current_index := some (p.files.length - 1) }
          (currentFile p1, p1)
        else (none, p)
      else
        let p1 := { p with current_index := some (index - 1) }
        (currentFile p1, p1)

/-- Embeds `Playlist::reset`: clears the cursor. -/
def resetPlaylist (p : Playlist) : Playlist :=
  { p with current_index := none }

/-- Embeds `Playlist::set_loop`. -/
def setLoop (p : Playlist) (b : Bool) : Playlist :=
  { p with loop_playlist := b }

/-- The playlist state after `k` successive `next_file` calls. -/
def stepNext (p : Playlist) : Nat → Playlist
  | 0 => p
  | k + 1 => (nextFile (stepNext p k)).2

/-- Playlist states reachable through the public operations, starting from
any state with an unset cursor (both constructors `from_file` and
`from_directory` build the playlist via `default`/`new` plus `add_file`
calls, so they always return an unset cursor). -/
inductive ReachablePlaylist : Playlist → Prop
  | init (files : List String) (l : Bool) : ReachablePlaylist ⟨files, none, l⟩
  | add (p : Playlist) (f : String) :
      ReachablePlaylist p → ReachablePlaylist (addFile p f)
  | next (p : Playlist) : ReachablePlaylist p → ReachablePlaylist (nextFile p).2
  | prev (p : Playlist) : ReachablePlaylist p → ReachablePlaylist (previousFile p).2
  | reset (p : Playlist) : ReachablePlaylist p → ReachablePlaylist (resetPlaylist p)
  | setl (p : Playlist) (b : Bool) :
      ReachablePlaylist p → ReachablePlaylist (setLoop p b)

/-! ## `src/media/subtitle_sync.rs` / `src/subtitle_sync.rs` — lookup -/

/-- Embeds the `SubtitleEntry` struct: start/end in milliseconds plus text. -/
structure SubtitleEntry where
  start_time : Nat
  end_time : Nat
  text : String
  deriving Repr, DecidableEq

/-- Embeds `SubtitleSyncer::get_current_subtitle`
(src/media/subtitle_sync.rs): linear scan returning the first entry whose
inclusive interval contains the position. -/
def get_current_subtitle (entries : List SubtitleEntry) (current_time_ms : Nat) :
    Option String :=
  match entries with
  | [] => none
  | e :: rest =>
    if current_time_ms ≥ e.start_time ∧ current_time_ms ≤ e.end_time then some e.text
    else get_current_subtitle rest current_time_ms

/-- Embeds `SubtitleSyncer::get_current_subtitle` (src/subtitle_sync.rs):
same scan, but returning the empty string instead of `None`. -/
def get_current_subtitle_string (entries : List SubtitleEntry) (position_ms : Nat) :
    String :=
  match entries with
  | [] => ""
  | e :: rest =>
    if position_ms ≥ e.start_time ∧ position_ms ≤ e.end_time then e.text
    else get_current_subtitle_string rest position_ms

/-! ## `src/types.rs` — subtitle types, and `src/media/streaming.rs` MIME -/

/-- Embeds the `SubtitleType` enum (src/types.rs). -/
inductive SubtitleType
  | srt
  | ass
  | ssa
  deriving Repr, DecidableEq

/-- Embeds `SubtitleType::extension`. -/
def SubtitleType.extension : SubtitleType → String
  | .srt => "srt"
  | .ass => "ass"
  | .ssa => "ssa"

/-- Embeds `SubtitleType::mime_type`. -/
def SubtitleType.mimeType : SubtitleType → String
  | .srt => "text/srt"
  | .ass => "text/x-ass"
  | .ssa => "text/x-ssa"

/-- Embeds `SubtitleType::all`: the supported types in preference order. -/
def SubtitleType.all : List SubtitleType :=
  [.srt, .ass, .ssa]

/-- Model of Rust `str::to_lowercase` restricted to characters with a
one-to-one lowercase mapping (which covers the ASCII extensions compared
against here): lowercase each character in place. -/
def toLowerStr (s : String) : String :=
  String.mk (s.toList.map Char.toLower)

/-- Embeds `detect_subtitle_type` (src/utils/media.rs).  A Rust `Path` is
modelled by its extension (`path.extension().and_then(to_str)`), the only
component this function reads. -/
def detect_subtitle_type (extension : Option String) : Option SubtitleType :=
  let ext := toLowerStr (extension.getD "")
  SubtitleType.all.find? fun t => t.extension == ext

/-- Embeds `get_mime_type_from_path` (src/media/streaming.rs), over the
path's extension: lowercase the extension and look it up in the fixed
table, defaulting to `application/octet-stream` (also used when the path
has no extension). -/
def get_mime_type_from_path (extension : Option String) : String :=
  match extension with
  | none => "application/octet-stream"
  | some ext =>
    match toLowerStr ext with
    | "mp4" => "video/mp4"
    | "avi" => "video/x-msvideo"
    | "mkv" => "video/x-matroska"
    | "mov" => "video/quicktime"
    | "wmv" => "video/x-ms-wmv"
    | "flv" => "video/x-flv"
    | "webm" => "video/webm"
    | "m4v" => "video/x-m4v"
    | "3gp" => "video/3gpp"
    | "mp3" => "audio/mpeg"
    | "wav" => "audio/wav"
    | "flac" => "audio/flac"
    | "aac" => "audio/aac"
    | "ogg" => "audio/ogg"
    | "m4a" => "audio/mp4"
    | _ => "application/octet-stream"

/-- Embeds `MediaStreamingServer::video_type` (src/media/streaming.rs):
the MIME type of the video file, from the extension table. -/
def media_video_type (extension : Option String) : String :=
  get_mime_type_from_path extension

/-- Embeds `MediaStreamingServer::subtitle_type` (src/media/streaming.rs),
for a present subtitle file: detected subtitle MIME type, defaulting to
`text/plain`. -/
def media_subtitle_type (extension : Option String) : String :=
  match detect_subtitle_type extension with
  | some t => t.mimeType
  | none => "text/plain"

/-- Embeds `MediaStreamingServer::video_type` (src/streaming.rs): returns
the bare extension string
(`extension().unwrap_or_default().to_str().unwrap_or_default()`), not a
MIME type. -/
def streaming_video_type (extension : Option String) : String :=
  extension.getD ""

/-- Embeds `MediaStreamingServer::subtitle_type` (src/streaming.rs), for a
present subtitle file: `detect_subtitle_type(..).map(to_string)`, where
`Display` for `SubtitleType` prints the extension. -/
def streaming_subtitle_type (extension : Option String) : Option String :=
  (detect_subtitle_type extension).map fun t => t.extension

/-! ## `src/utils/media.rs` — URL slug -/

/-- Model of the third-party `slugify` crate with separator `"."`,
restricted to ASCII input (the crate additionally transliterates Unicode):
lowercase every alphanumeric character, replace every other character with
the separator, collapse separator runs, and trim separators at both ends. -/
def slugCore : List Char → List Char
  | [] => []
  | c :: rest =>
    if c.isAlphanum then c.toLower :: slugCore rest
    else
      match slugCore rest with
      | [] => []
      | d :: ds => if d = '.' then d :: ds else '.' :: d :: ds

/-- Embeds `sanitize_filename_for_url` (src/utils/media.rs):
`slugify!(filename, separator = ".")`. -/
def sanitize_filename_for_url (filename : String) : String :=
  String.mk (slugCore filename.toList)


/-! ## `src/dlna/actions.rs` — toggle play/pause -/

/-- The single transport action `toggle_play_pause` issues after reading
the transport state. -/
inductive TransportAction
  | pauseAction
  | resumeAction
  deriving Repr, DecidableEq

/-- Embeds the state dispatch of `toggle_play_pause` (src/dlna/actions.rs):
`PLAYING` pauses; `PAUSED_PLAYBACK` and `STOPPED` resume; any other state
resumes as the default. -/
def toggle_play_pause (transport_state : String) : TransportAction :=
  match transport_state with
  | "PLAYING" => TransportAction.pauseAction
  | "PAUSED_PLAYBACK" => TransportAction.resumeAction
  | "STOPPED" => TransportAction.resumeAction
  | _ => TransportAction.resumeAction

/-! ## `src/streaming.rs` / `src/media/streaming.rs` — server construction -/

/-- The error variants reachable from `MediaStreamingServer::new`
(src/error.rs).  `MediaFileNotFound` keeps its `path` and `context` fields;
for `NetworkAddressParseError` only the `address` field is kept (its
`reason` interpolates the display of the std parse error, which is outside
the repository). -/
inductive StreamingError
  | MediaFileNotFound (path context : String)
  | NetworkAddressParseError (address : String)
  deriving Repr, DecidableEq

/-- Embeds the `MediaFile` struct (src/streaming.rs): path, base URI, and
sanitized URL segment. -/
structure MediaFile where
  file_path : String
  host_uri : String
  file_uri : String
  deriving Repr, DecidableEq

/-- Embeds the `MediaStreamingServer` struct (src/streaming.rs); the bound
address is kept as its canonical string. -/
structure MediaStreamingServer where
  video_file : MediaFile
  subtitle_file : Option MediaFile
  server_addr : String
  deriving Repr, DecidableEq

/-- The environment of effects `MediaStreamingServer::new` consults:
`Path::exists` on the filesystem and `str::parse::<SocketAddr>` from std,
the latter returning the canonical display of the parsed address. -/
structure StreamEnv where
  fileExists : String → Bool
  parseAddr : String → Option String

/-- Embeds `MediaStreamingServer::new` (src/streaming.rs): format
`"{host_ip}:{host_port}"` and parse it (failure: `NetworkAddressParseError`),
then require the video file to exist (failure: `MediaFileNotFound`), then
require a supplied subtitle file to exist (failure: `MediaFileNotFound`). -/
def streamingServerNew (env : StreamEnv) (video_path : String)
    (subtitle_path : Option String) (host_ip : String) (host_port : Nat) :
    Except StreamingError MediaStreamingServer :=
  let server_addr_str := host_ip ++ ":" ++ Nat.repr host_port
  match env.parseAddr server_addr_str with
  | none => Except.error (StreamingError.NetworkAddressParseError server_addr_str)
  | some server_addr =>
    match env.fileExists video_path with
    | false =>
      Except.error (StreamingError.MediaFileNotFound video_path
        "Video file does not exist or is not accessible")
    | true =>
      let video_file : MediaFile :=
        { file_path := video_path
          host_uri := "http://" ++ server_addr
          file_uri := sanitize_filename_for_url video_path }
      match subtitle_path with
      | some sp =>
        match env.fileExists sp with
        | false =>
          Except.error (StreamingError.MediaFileNotFound sp
            "Subtitle file does not exist or is not accessible")
        | true =>
          Except.ok
            { video_file := video_file
              subtitle_file := some
                { file_path := sp
                  host_uri := "http://" ++ server_addr
                  file_uri := sanitize_filename_for_url sp }
              server_addr := server_addr }
      | none =>
        Except.ok
          { video_file := video_file
            subtitle_file := none
            server_addr := server_addr }

/-- Embeds `MediaStreamingServer::new` (src/media/streaming.rs): same
address and subtitle handling, but the video `MediaFile` is built without
any existence check on the video path. -/
def mediaStreamingServerNew (env : StreamEnv) (video_path : String)
    (subtitle_path : Option String) (host_ip : String) (host_port : Nat) :
    Except StreamingError MediaStreamingServer :=
  let server_addr_str := host_ip ++ ":" ++ Nat.repr host_port
  match env.parseAddr server_addr_str with
  | none => Except.error (StreamingError.NetworkAddressParseError server_addr_str)
  | some server_addr =>
    let video_file : MediaFile :=
      { file_path := video_path
        host_uri := "http://" ++ server_addr
        file_uri := sanitize_filename_for_url video_path }
    match subtitle_path with
    | some sp =>
      match env.fileExists sp with
      | false =>
        Except.error (StreamingError.MediaFileNotFound sp
          "Subtitle file does not exist or is not accessible")
      | true =>
        Except.ok
          { video_file := video_file
            subtitle_file := some
              { file_path := sp
                host_uri := "http://" ++ server_addr
                file_uri := sanitize_filename_for_url sp }
            server_addr := server_addr }
    | none =>
      Except.ok
        { video_file := video_file
          subtitle_file := none
          server_addr := server_addr }

/-! ## Concrete instances used to exercise the theorems -/

/-- A concrete operation sequence that fails on attempts 1 and 2 and
succeeds on attempt 3 (the scenario named by the spec). -/
def retryDemoOp : Nat → Except String Nat
  | 3 => Except.ok 42
  | n => Except.error ("failure on attempt " ++ Nat.repr n)

/-- A concrete operation sequence that fails on every attempt. -/
def retryFailOp : Nat → Except String Nat :=
  fun n => Except.error ("failure on attempt " ++ Nat.repr n)

/-- An environment in which no file exists and every address string parses
to itself. -/
def missingFilesEnv : StreamEnv :=
  { fileExists := fun _ => false, parseAddr := fun s => some s }

/-- An environment in which every file exists and every address string
parses to itself. -/
def allFilesEnv : StreamEnv :=
  { fileExists := fun _ => true, parseAddr := fun s => some s }

/-- An environment in which files exist but no address string parses. -/
def badAddrEnv : StreamEnv :=
  { fileExists := fun _ => true, parseAddr := fun _ => none }

/-! # Lemmas and theorems -/

/-! ## Facts about the split/parse primitives -/

theorem splitChars_ne_nil (p : Char → Bool) (cs : List Char) : splitChars p cs ≠ [] := by
  cases cs with
  | nil => simp [splitChars]
  | cons c rest =>
    simp only [splitChars]
    split <;> simp

theorem splitChars_cons_of_sep (p : Char → Bool) (c : Char) (cs : List Char)
    (h : p c = true) : splitChars p (c :: cs) = [] :: splitChars p cs := by
  simp [splitChars, h]

theorem splitChars_cons_of_not_sep (p : Char → Bool) (c : Char) (cs : List Char)
    (h : p c = false) :
    splitChars p (c :: cs) =
      (c :: (splitChars p cs).headD []) :: (splitChars p cs).drop 1 := by
  simp [splitChars, h]

theorem splitChars_head_cons (p : Char → Bool) (cs : List Char) :
    splitChars p cs = (splitChars p cs).headD [] :: (splitChars p cs).drop 1 := by
  rcases hh : splitChars p cs with _ | ⟨g, gs⟩
  · exact absurd hh (splitChars_ne_nil p cs)
  · simp

theorem splitChars_append_run (p : Char → Bool) (xs ys : List Char)
    (h : ∀ c ∈ xs, p c = false) :
    splitChars p (xs ++ ys) =
      (xs ++ (splitChars p ys).headD []) :: (splitChars p ys).drop 1 := by
  induction xs with
  | nil => simpa using splitChars_head_cons p ys
  | cons c cs ih =>
    have hc : p c = false := h c (by simp)
    have ih2 := ih fun d hd => h d (by simp [hd])
    rw [List.cons_append, splitChars_cons_of_not_sep p c (cs ++ ys) hc, ih2]
    simp

theorem splitChars_run (p : Char → Bool) (xs : List Char) (h : ∀ c ∈ xs, p c = false) :
    splitChars p xs = [xs] := by
  have h2 := splitChars_append_run p xs [] h
  simpa [splitChars] using h2

theorem splitChars_sep_field (p : Char → Bool) (xs : List Char) (s : Char)
    (ys : List Char) (hxs : ∀ c ∈ xs, p c = false) (hs : p s = true) :
    splitChars p (xs ++ s :: ys) = xs :: splitChars p ys := by
  rw [splitChars_append_run p xs (s :: ys) hxs, splitChars_cons_of_sep p s ys hs]
  simp

theorem takeWhileAppendStop (q : Char → Bool) (xs : List Char) (y : Char)
    (ys : List Char) (hxs : ∀ c ∈ xs, q c = true) (hy : q y = false) :
    (xs ++ y :: ys).takeWhile q = xs := by
  induction xs with
  | nil => simp [List.takeWhile, hy]
  | cons c cs ih =>
    have hc : q c = true := hxs c (by simp)
    have ih2 := ih fun d hd => hxs d (by simp [hd])
    simp [List.takeWhile, hc, ih2]

theorem dropWhileAppendStop (q : Char → Bool) (xs : List Char) (y : Char)
    (ys : List Char) (hxs : ∀ c ∈ xs, q c = true) (hy : q y = false) :
    (xs ++ y :: ys).dropWhile q = y :: ys := by
  induction xs with
  | nil => simp [List.dropWhile, hy]
  | cons c cs ih =>
    have hc : q c = true := hxs c (by simp)
    have ih2 := ih fun d hd => hxs d (by simp [hd])
    simp [List.dropWhile, hc, ih2]

theorem digit_head_ne_plus (xs : List Char) (hd : ∀ c ∈ xs, c.isDigit = true) :
    xs.head? ≠ some '+' := by
  cases xs with
  | nil => simp
  | cons c cs =>
    have h1 := hd c (by simp)
    simp only [List.head?]
    intro h2
    rw [Option.some_inj] at h2
    rw [h2] at h1
    exact absurd h1 (by decide)

theorem parseU64_digits (xs : List Char) (hne : xs ≠ []) (hd : ∀ c ∈ xs, c.isDigit = true)
    (hv : digitsVal xs < 2 ^ 64) : parseU64 xs = some (digitsVal xs) := by
  have hh := digit_head_ne_plus xs hd
  have hall : xs.all Char.isDigit = true := by
    rw [List.all_eq_true]
    exact hd
  simp [parseU64, hh, hne, hall]
  simpa using hv

theorem parseU64_none_of_bad (xs : List Char) (c : Char) (hc : c ∈ xs)
    (hcd : c.isDigit = false) (hh : xs.head? ≠ some '+') : parseU64 xs = none := by
  have hall : xs.all Char.isDigit = false := by
    rw [List.all_eq_false]
    exact ⟨c, hc, by simp [hcd]⟩
  simp [parseU64, hh, hall]

theorem parseDecimal_stops_at_comma (a b : List Char) (hne : a ≠ [])
    (ha : ∀ c ∈ a, c.isDigit = true) : parseDecimal (a ++ ',' :: b) = none := by
  have ha0 := digit_head_ne_plus a ha
  have ht := takeWhileAppendStop Char.isDigit a ',' b ha (by decide)
  have hdw := dropWhileAppendStop Char.isDigit a ',' b ha (by decide)
  simp [parseDecimal, ha0, ht, hdw, hne]

theorem digit_head_append_ne_plus (xs ys : List Char) (hne : xs ≠ [])
    (hd : ∀ c ∈ xs, c.isDigit = true) : (xs ++ ys).head? ≠ some '+' := by
  cases xs with
  | nil => exact absurd rfl hne
  | cons x tl =>
    have h1 := hd x (by simp)
    simp only [List.cons_append, List.head?]
    intro h2
    rw [Option.some_inj] at h2
    rw [h2] at h1
    exact absurd h1 (by decide)

theorem beq_false_of_digit {x s : Char} (h : x.isDigit = true) (hs : s.isDigit = false) :
    (x == s) = false := by
  cases hbe : x == s with
  | false => rfl
  | true =>
    have hx : x = s := eq_of_beq hbe
    rw [hx, hs] at h
    exact absurd h (by simp)

theorem digit_not_colon {x : Char} (h : x.isDigit = true) : (x == ':') = false :=
  beq_false_of_digit h (by decide)

theorem digit_not_comma_colon {x : Char} (h : x.isDigit = true) :
    (x == ',' || x == ':') = false := by
  rw [beq_false_of_digit h (show (',').isDigit = false by decide),
    beq_false_of_digit h (show (':').isDigit = false by decide)]
  rfl

theorem run_not_colon_digits (l : List Char) (h : ∀ x ∈ l, x.isDigit = true) :
    ∀ x ∈ l, (x == ':') = false :=
  fun x hx => digit_not_colon (h x hx)

theorem run_not_colon_append (l m : List Char) (hl : ∀ x ∈ l, (x == ':') = false)
    (hm : ∀ x ∈ m, (x == ':') = false) : ∀ x ∈ l ++ m, (x == ':') = false := by
  intro x hx
  rcases List.mem_append.mp hx with h | h
  exacts [hl x h, hm x h]

theorem run_not_colon_cons (y : Char) (m : List Char) (hy : (y == ':') = false)
    (hm : ∀ x ∈ m, (x == ':') = false) : ∀ x ∈ y :: m, (x == ':') = false := by
  intro x hx
  rcases List.mem_cons.mp hx with h | h
  · rw [h]; exact hy
  · exact hm x h

/-- On an input made of four nonempty digit fields joined by three
separators each drawn from `{:, ,}`, the three-field DLNA parser always
fails: either the colon-split does not produce exactly three parts, or the
part containing a comma fails its numeric parse. -/
theorem parse_dlna_fails_on_four_fields (a b c d : List Char) (s1 s2 s3 : Char)
    (hane : a ≠ []) (hbne : b ≠ []) (hcne : c ≠ []) (hdne : d ≠ [])
    (hda : ∀ x ∈ a, x.isDigit = true) (hdb : ∀ x ∈ b, x.isDigit = true)
    (hdc : ∀ x ∈ c, x.isDigit = true) (hdd : ∀ x ∈ d, x.isDigit = true)
    (hva : digitsVal a < 2 ^ 64) (hvb : digitsVal b < 2 ^ 64)
    (hs1 : s1 = ':' ∨ s1 = ',') (hs2 : s2 = ':' ∨ s2 = ',') (hs3 : s3 = ':' ∨ s3 = ',') :
    parse_dlna_time_format (a ++ s1 :: (b ++ s2 :: (c ++ s3 :: d))) = none := by
  have hra := run_not_colon_digits a hda
  have hrb := run_not_colon_digits b hdb
  have hrc := run_not_colon_digits c hdc
  have hrd := run_not_colon_digits d hdd
  have hcomma : ((',' : Char) == ':') = false := by decide
  have hcolon : ((':' : Char) == ':') = true := by decide
  have hpa := parseU64_digits a hane hda hva
  have hpb := parseU64_digits b hbne hdb hvb
  rcases hs1 with h1 | h1 <;> rcases hs2 with h2 | h2 <;> rcases hs3 with h3 | h3 <;>
    subst h1 <;> subst h2 <;> subst h3
  · -- a : b : c : d  — four colon-parts
    have hsp : splitChars (fun x => x == ':') (a ++ ':' :: (b ++ ':' :: (c ++ ':' :: d))) =
        [a, b, c, d] := by
      rw [splitChars_sep_field _ a ':' _ hra hcolon,
        splitChars_sep_field _ b ':' _ hrb hcolon,
        splitChars_sep_field _ c ':' _ hrc hcolon, splitChars_run _ d hrd]
    simp [parse_dlna_time_format, hsp]
  · -- a : b : c , d  — seconds part contains a comma
    have hsp : splitChars (fun x => x == ':') (a ++ ':' :: (b ++ ':' :: (c ++ ',' :: d))) =
        [a, b, c ++ ',' :: d] := by
      rw [splitChars_sep_field _ a ':' _ hra hcolon,
        splitChars_sep_field _ b ':' _ hrb hcolon,
        splitChars_run _ (c ++ ',' :: d)
          (run_not_colon_append c (',' :: d) hrc (run_not_colon_cons ',' d hcomma hrd))]
    have hsec := parseDecimal_stops_at_comma c d hcne hdc
    simp [parse_dlna_time_format, hsp, hpa, hpb, hsec]
  · -- a : b , c : d  — minutes part contains a comma
    have hsp : splitChars (fun x => x == ':') (a ++ ':' :: (b ++ ',' :: (c ++ ':' :: d))) =
        [a, b ++ ',' :: c, d] := by
      have hassoc : b ++ ',' :: (c ++ ':' :: d) = (b ++ ',' :: c) ++ ':' :: d := by
        simp [List.append_assoc]
      rw [splitChars_sep_field _ a ':' _ hra hcolon, hassoc,
        splitChars_sep_field _ (b ++ ',' :: c) ':' _
          (run_not_colon_append b (',' :: c) hrb (run_not_colon_cons ',' c hcomma hrc))
          hcolon,
        splitChars_run _ d hrd]
    have hmin : parseU64 (b ++ ',' :: c) = none :=
      parseU64_none_of_bad _ ',' (by simp) (by decide)
        (digit_head_append_ne_plus b _ hbne hdb)
    simp [parse_dlna_time_format, hsp, hpa, hmin]
  · -- a : b , c , d  — only two colon-parts
    have hsp : splitChars (fun x => x == ':') (a ++ ':' :: (b ++ ',' :: (c ++ ',' :: d))) =
        [a, b ++ ',' :: (c ++ ',' :: d)] := by
      rw [splitChars_sep_field _ a ':' _ hra hcolon,
        splitChars_run _ (b ++ ',' :: (c ++ ',' :: d))
          (run_not_colon_append b _ hrb
            (run_not_colon_cons ',' _ hcomma
              (run_not_colon_append c _ hrc (run_not_colon_cons ',' d hcomma hrd))))]
    simp [parse_dlna_time_format, hsp]
  · -- a , b : c : d  — hours part contains a comma
    have hsp : splitChars (fun x => x == ':') (a ++ ',' :: (b ++ ':' :: (c ++ ':' :: d))) =
        [a ++ ',' :: b, c, d] := by
      have hassoc : a ++ ',' :: (b ++ ':' :: (c ++ ':' :: d)) =
          (a ++ ',' :: b) ++ ':' :: (c ++ ':' :: d) := by
        simp [List.append_assoc]
      rw [hassoc,
        splitChars_sep_field _ (a ++ ',' :: b) ':' _
          (run_not_colon_append a (',' :: b) hra (run_not_colon_cons ',' b hcomma hrb))
          hcolon,
        splitChars_sep_field _ c ':' _ hrc hcolon, splitChars_run _ d hrd]
    have hhour : parseU64 (a ++ ',' :: b) = none :=
      parseU64_none_of_bad _ ',' (by simp) (by decide)
        (digit_head_append_ne_plus a _ hane hda)
    simp [parse_dlna_time_format, hsp, hhour]
  · -- a , b : c , d  — only two colon-parts
    have hsp : splitChars (fun x => x == ':') (a ++ ',' :: (b ++ ':' :: (c ++ ',' :: d))) =
        [a ++ ',' :: b, c ++ ',' :: d] := by
      have hassoc : a ++ ',' :: (b ++ ':' :: (c ++ ',' :: d)) =
          (a ++ ',' :: b) ++ ':' :: (c ++ ',' :: d) := by
        simp [List.append_assoc]
      rw [hassoc,
        splitChars_sep_field _ (a ++ ',' :: b) ':' _
          (run_not_colon_append a (',' :: b) hra (run_not_colon_cons ',' b hcomma hrb))
          hcolon,
        splitChars_run _ (c ++ ',' :: d)
          (run_not_colon_append c (',' :: d) hrc (run_not_colon_cons ',' d hcomma hrd))]
    simp [parse_dlna_time_format, hsp]
  · -- a , b , c : d  — only two colon-parts
    have hsp : splitChars (fun x => x == ':') (a ++ ',' :: (b ++ ',' :: (c ++ ':' :: d))) =
        [a ++ ',' :: (b ++ ',' :: c), d] := by
      have hassoc : a ++ ',' :: (b ++ ',' :: (c ++ ':' :: d)) =
          (a ++ ',' :: (b ++ ',' :: c)) ++ ':' :: d := by
        simp [List.append_assoc]
      rw [hassoc,
        splitChars_sep_field _ (a ++ ',' :: (b ++ ',' :: c)) ':' _
          (run_not_colon_append a _ hra
            (run_not_colon_cons ',' _ hcomma
              (run_not_colon_append b _ hrb (run_not_colon_cons ',' c hcomma hrc))))
          hcolon,
        splitChars_run _ d hrd]
    simp [parse_dlna_time_format, hsp]
  · -- a , b , c , d  — a single colon-part
    have hsp : splitChars (fun x => x == ':') (a ++ ',' :: (b ++ ',' :: (c ++ ',' :: d))) =
        [a ++ ',' :: (b ++ ',' :: (c ++ ',' :: d))] :=
      splitChars_run _ _
        (run_not_colon_append a _ hra
          (run_not_colon_cons ',' _ hcomma
            (run_not_colon_append b _ hrb
              (run_not_colon_cons ',' _ hcomma
                (run_not_colon_append c _ hrc (run_not_colon_cons ',' d hcomma hrd))))))
    simp [parse_dlna_time_format, hsp]

/-! ## C10 — mixed separators in the four-field format -/

/-- C10 (amended): for any input made of four nonempty digit fields
whose values fit in `u64`, joined by three separators each drawn from
`{:, ,}`, `time_str_to_milliseconds` returns
`(h*3600000 + m*60000 + s*1000 + ms) mod 2^64` — the stated sum computed
in `u64` arithmetic.  (Fields outside the `u64` range fail the parse and
yield 0 instead, which is why the unbounded formula of the original claim
does not hold.) -/
theorem mixed_separator_four_field_parse (a b c d : List Char) (s1 s2 s3 : Char)
    (hane : a ≠ []) (hbne : b ≠ []) (hcne : c ≠ []) (hdne : d ≠ [])
    (hda : ∀ x ∈ a, x.isDigit = true) (hdb : ∀ x ∈ b, x.isDigit = true)
    (hdc : ∀ x ∈ c, x.isDigit = true) (hdd : ∀ x ∈ d, x.isDigit = true)
    (hva : digitsVal a < 2 ^ 64) (hvb : digitsVal b < 2 ^ 64)
    (hvc : digitsVal c < 2 ^ 64) (hvd : digitsVal d < 2 ^ 64)
    (hs1 : s1 = ':' ∨ s1 = ',') (hs2 : s2 = ':' ∨ s2 = ',') (hs3 : s3 = ':' ∨ s3 = ',') :
    time_str_to_milliseconds (String.mk (a ++ s1 :: (b ++ s2 :: (c ++ s3 :: d)))) =
      (digitsVal a * 3600000 + digitsVal b * 60000 + digitsVal c * 1000 + digitsVal d) %
        2 ^ 64 := by
  have hp2a : ∀ x ∈ a, (x == ',' || x == ':') = false :=
    fun x hx => digit_not_comma_colon (hda x hx)
  have hp2b : ∀ x ∈ b, (x == ',' || x == ':') = false :=
    fun x hx => digit_not_comma_colon (hdb x hx)
  have hp2c : ∀ x ∈ c, (x == ',' || x == ':') = false :=
    fun x hx => digit_not_comma_colon (hdc x hx)
  have hp2d : ∀ x ∈ d, (x == ',' || x == ':') = false :=
    fun x hx => digit_not_comma_colon (hdd x hx)
  have hsep1 : (s1 == ',' || s1 == ':') = true := by
    rcases hs1 with h | h <;> subst h <;> decide
  have hsep2 : (s2 == ',' || s2 == ':') = true := by
    rcases hs2 with h | h <;> subst h <;> decide
  have hsep3 : (s3 == ',' || s3 == ':') = true := by
    rcases hs3 with h | h <;> subst h <;> decide
  have hsp : splitChars (fun x => x == ',' || x == ':')
      (a ++ s1 :: (b ++ s2 :: (c ++ s3 :: d))) = [a, b, c, d] := by
    rw [splitChars_sep_field _ a s1 _ hp2a hsep1,
      splitChars_sep_field _ b s2 _ hp2b hsep2,
      splitChars_sep_field _ c s3 _ hp2c hsep3, splitChars_run _ d hp2d]
  have hsub : parse_subtitle_time_format (a ++ s1 :: (b ++ s2 :: (c ++ s3 :: d))) =
      some ((digitsVal a * 3600000 + digitsVal b * 60000 + digitsVal c * 1000 +
        digitsVal d) % 2 ^ 64) := by
    simp [parse_subtitle_time_format, hsp, parseU64_digits a hane hda hva,
      parseU64_digits b hbne hdb hvb, parseU64_digits c hcne hdc hvc,
      parseU64_digits d hdne hdd hvd]
  have hdlna := parse_dlna_fails_on_four_fields a b c d s1 s2 s3 hane hbne hcne hdne
    hda hdb hdc hdd hva hvb hs1 hs2 hs3
  have hlist : (String.mk (a ++ s1 :: (b ++ s2 :: (c ++ s3 :: d)))).toList =
      a ++ s1 :: (b ++ s2 :: (c ++ s3 :: d)) := rfl
  simp [time_str_to_milliseconds, hlist, hdlna, hsub]

/-- Witness for C10: `"01:30:45,123"` written with one comma and two colons
evaluates to 5445123 ms through the amended formula. -/
theorem mixed_separator_four_field_parse_witness :
    time_str_to_milliseconds (String.mk
      (['0', '1'] ++ ':' :: (['3', '0'] ++ ':' :: (['4', '5'] ++ ',' :: ['1', '2', '3'])))) =
      5445123 := by
  have h := mixed_separator_four_field_parse ['0', '1'] ['3', '0'] ['4', '5'] ['1', '2', '3']
    ':' ':' ',' (by decide) (by decide) (by decide) (by decide) (by decide) (by decide)
    (by decide) (by decide) (by decide) (by decide) (by decide) (by decide)
    (Or.inl rfl) (Or.inl rfl) (Or.inr rfl)
  rw [h]
  decide

/-- Counterexample for C10 as stated: the field 2^63 is a valid `u64`, but
the `u64` sum wraps, so the result is not the mathematical
`h*3600000 + m*60000 + s*1000 + ms` (which here is nonzero while the
function returns 0). -/
theorem mixed_separator_counterexample :
    time_str_to_milliseconds "9223372036854775808:0:0:0" = 0 ∧
    (9223372036854775808 * 3600000 + 0 * 60000 + 0 * 1000 + 0 : Nat) ≠ 0 := by
  constructor <;> decide

/-- Sanity checks tying the embedded model to the unit tests found in
src/utils/time.rs and src/utils/media.rs. -/
theorem embedded_model_matches_source_tests :
    time_str_to_milliseconds "01:30:45,123" = 5445123 ∧
    time_str_to_milliseconds "02:15:30.5" = 8130500 ∧
    time_str_to_milliseconds "00:00:30" = 30000 ∧
    sanitize_filename_for_url "My Video File.mp4" = "my.video.file.mp4" ∧
    sanitize_filename_for_url "Test (2023).avi" = "test.2023.avi" :=
  ⟨by decide, by decide, by decide, by decide, by decide⟩

/-! ## C3 — time-string conversion -/

/-- C3: `time_str_to_milliseconds` is total (it is a plain function into
`Nat`), maps `"01:30:45"` to 5445000 ms and `"00:00:30,000"` to 30000 ms,
maps `"invalid"` and `"1:2"` to 0, and maps every string on which both the
`H:M:S` parser and the `H:M:S,mmm` parser fail to 0. -/
theorem time_str_to_milliseconds_spec :
    time_str_to_milliseconds "01:30:45" = 5445000 ∧
    time_str_to_milliseconds "00:00:30,000" = 30000 ∧
    time_str_to_milliseconds "invalid" = 0 ∧
    time_str_to_milliseconds "1:2" = 0 ∧
    ∀ s : String, parse_dlna_time_format s.toList = none →
      parse_subtitle_time_format s.toList = none → time_str_to_milliseconds s = 0 := by
  refine ⟨by decide, by decide, by decide, by decide, ?_⟩
  intro s h1 h2
  simp only [String.toList] at h1 h2
  simp [time_str_to_milliseconds, String.toList, h1, h2]

/-- Witness for C3: the fallback clause applied to the concrete
string `"not a time"`. -/
theorem time_str_to_milliseconds_spec_witness :
    time_str_to_milliseconds "not a time" = 0 :=
  time_str_to_milliseconds_spec.2.2.2.2 "not a time" (by decide) (by decide)

/-! ## C1 — retry with bounded exponential backoff -/

/-- C1: for every operation, the retry wrapper calls it at most 3
times; if attempt `k` (1 ≤ k ≤ 3) is the first to succeed, its result is
returned, exactly `k` calls were made, and the delays slept are
`100·2^(i-1)` for `i = 1..k-1` (none after the successful attempt); if all
3 attempts fail, the third error is returned unchanged, 3 calls were made,
and the delays are `[100, 200]` — none after the final attempt. -/
theorem retry_with_backoff_spec {E A : Type} (op : Nat → Except E A) :
    (retry_with_backoff op).calls ≤ 3 ∧
    (∀ k x, 1 ≤ k → k ≤ 3 → op k = Except.ok x →
      (∀ j, 1 ≤ j → j < k → ∃ e, op j = Except.error e) →
      (retry_with_backoff op).result = Except.ok x ∧
      (retry_with_backoff op).calls = k ∧
      (retry_with_backoff op).delays = (List.range (k - 1)).map fun i => backoffDelayMs (i + 1)) ∧
    (∀ e1 e2 e3, op 1 = Except.error e1 → op 2 = Except.error e2 → op 3 = Except.error e3 →
      (retry_with_backoff op).result = Except.error (some e3) ∧
      (retry_with_backoff op).calls = 3 ∧
      (retry_with_backoff op).delays = [backoffDelayMs 1, backoffDelayMs 2]) := by
  refine ⟨?_, ?_, ?_⟩
  · rcases h1 : op 1 with e1 | r1
    · rcases h2 : op 2 with e2 | r2
      · rcases h3 : op 3 with e3 | r3 <;>
          simp [retry_with_backoff, retryGo, MAX_NETWORK_RETRIES, h1, h2, h3]
      · simp [retry_with_backoff, retryGo, MAX_NETWORK_RETRIES, h1, h2]
    · simp [retry_with_backoff, retryGo, MAX_NETWORK_RETRIES, h1]
  · intro k x hk1 hk3 hok hfail
    interval_cases k
    · simp [retry_with_backoff, retryGo, MAX_NETWORK_RETRIES, hok]
    · obtain ⟨e1, he1⟩ := hfail 1 (by omega) (by omega)
      simp [retry_with_backoff, retryGo, MAX_NETWORK_RETRIES, he1, hok, backoffDelayMs,
        List.range_succ]
    · obtain ⟨e1, he1⟩ := hfail 1 (by omega) (by omega)
      obtain ⟨e2, he2⟩ := hfail 2 (by omega) (by omega)
      simp [retry_with_backoff, retryGo, MAX_NETWORK_RETRIES, he1, he2, hok, backoffDelayMs,
        List.range_succ]
  · intro e1 e2 e3 h1 h2 h3
    simp [retry_with_backoff, retryGo, MAX_NETWORK_RETRIES, h1, h2, h3]

/-- Witness for C1: the fail-twice-then-succeed operation returns the
success, was called exactly 3 times, and slept 100 ms then 200 ms. -/
theorem retry_with_backoff_spec_witness :
    (retry_with_backoff retryDemoOp).result = Except.ok 42 ∧
    (retry_with_backoff retryDemoOp).calls = 3 ∧
    (retry_with_backoff retryDemoOp).delays = [100, 200] := by
  have h := (retry_with_backoff_spec retryDemoOp).2.1 3 42 (by decide) (by decide) rfl
    (by
      intro j hj1 hjlt
      interval_cases j
      · exact ⟨"failure on attempt 1", rfl⟩
      · exact ⟨"failure on attempt 2", rfl⟩)
  refine ⟨h.1, h.2.1, ?_⟩
  rw [h.2.2]
  decide

/-! ## C8 — toggle play/pause dispatch -/

/-- C8: the transport action issued by `toggle_play_pause` is a
function of the observed transport state: `PLAYING` yields pause;
`PAUSED_PLAYBACK` and `STOPPED` yield resume; every other state string
also yields resume. -/
theorem toggle_play_pause_spec :
    toggle_play_pause "PLAYING" = TransportAction.pauseAction ∧
    toggle_play_pause "PAUSED_PLAYBACK" = TransportAction.resumeAction ∧
    toggle_play_pause "STOPPED" = TransportAction.resumeAction ∧
    ∀ s : String, s ≠ "PLAYING" → toggle_play_pause s = TransportAction.resumeAction := by
  refine ⟨rfl, rfl, rfl, ?_⟩
  intro s h
  unfold toggle_play_pause
  split
  · exact absurd rfl h
  · rfl
  · rfl
  · rfl

/-- Witness for C8: an unknown transport state resolves to resume. -/
theorem toggle_play_pause_spec_witness :
    toggle_play_pause "TRANSITIONING" = TransportAction.resumeAction :=
  toggle_play_pause_spec.2.2.2 "TRANSITIONING" (by decide)

/-! ## C4 — subtitle lookup -/

/-- C4: the lookup returns the text of the first entry (in list order)
whose inclusive interval `[start_ms, end_ms]` contains the position, and
nothing when no interval does; the string-returning variant is the same
lookup with `""` for `None`; over `[(1000,3000,"A"),(4000,6000,"B")]`,
position 2000 yields "A", 5000 yields "B", and 0, 3500 and 7000 yield no
text. -/
theorem subtitle_lookup_spec :
    (∀ (entries : List SubtitleEntry) (t : Nat),
      get_current_subtitle entries t =
        (entries.find? fun e => decide (e.start_time ≤ t) && decide (t ≤ e.end_time)).map
          fun e => e.text) ∧
    (∀ (entries : List SubtitleEntry) (t : Nat),
      get_current_subtitle_string entries t = (get_current_subtitle entries t).getD "") ∧
    (get_current_subtitle [⟨1000, 3000, "A"⟩, ⟨4000, 6000, "B"⟩] 2000 = some "A") ∧
    (get_current_subtitle [⟨1000, 3000, "A"⟩, ⟨4000, 6000, "B"⟩] 5000 = some "B") ∧
    (get_current_subtitle [⟨1000, 3000, "A"⟩, ⟨4000, 6000, "B"⟩] 0 = none) ∧
    (get_current_subtitle [⟨1000, 3000, "A"⟩, ⟨4000, 6000, "B"⟩] 3500 = none) ∧
    (get_current_subtitle_string [⟨1000, 3000, "A"⟩, ⟨4000, 6000, "B"⟩] 7000 = "") := by
  refine ⟨?_, ?_, by decide, by decide, by decide, by decide, by decide⟩
  · intro entries t
    induction entries with
    | nil => simp [get_current_subtitle]
    | cons e rest ih =>
      by_cases h : e.start_time ≤ t ∧ t ≤ e.end_time
      · have hb : (decide (e.start_time ≤ t) && decide (t ≤ e.end_time)) = true := by
          simp [h.1, h.2]
        simp [get_current_subtitle, List.find?, hb, h]
      · have hb : (decide (e.start_time ≤ t) && decide (t ≤ e.end_time)) = false := by
          rcases not_and_or.mp h with h1 | h1 <;> simp [h1]
        simp [get_current_subtitle, List.find?, hb, h, ih]
  · intro entries t
    induction entries with
    | nil => simp [get_current_subtitle, get_current_subtitle_string]
    | cons e rest ih =>
      by_cases h : t ≥ e.start_time ∧ t ≤ e.end_time <;>
        simp [get_current_subtitle, get_current_subtitle_string, h, ih]

/-! ## Playlist step lemmas -/

theorem nextFile_start (fs : List String) (l : Bool) (hne : fs.isEmpty = false) :
    nextFile ⟨fs, none, l⟩ = (fs[0]?, ⟨fs, some 0, l⟩) := by
  simp [nextFile, hne, currentFile]

theorem nextFile_advance (fs : List String) (l : Bool) (i : Nat) (hne : fs.isEmpty = false)
    (h : i + 1 < fs.length) :
    nextFile ⟨fs, some i, l⟩ = (fs[i + 1]?, ⟨fs, some (i + 1), l⟩) := by
  simp [nextFile, hne, currentFile, Nat.not_le.mpr h]

theorem nextFile_end_noloop (fs : List String) (i : Nat) (hne : fs.isEmpty = false)
    (h : fs.length ≤ i + 1) :
    nextFile ⟨fs, some i, false⟩ = (none, ⟨fs, some i, false⟩) := by
  simp [nextFile, hne, h]

theorem nextFile_wrap (fs : List String) (i : Nat) (hne : fs.isEmpty = false)
    (h : fs.length ≤ i + 1) :
    nextFile ⟨fs, some i, true⟩ = (fs[0]?, ⟨fs, some 0, true⟩) := by
  simp [nextFile, hne, h, currentFile]

theorem previousFile_start (fs : List String) (l : Bool) (hne : fs.isEmpty = false) :
    previousFile ⟨fs, none, l⟩ =
      (fs[fs.length - 1]?, ⟨fs, some (fs.length - 1), l⟩) := by
  simp [previousFile, hne, currentFile]

theorem previousFile_at_zero_noloop (fs : List String) (hne : fs.isEmpty = false) :
    previousFile ⟨fs, some 0, false⟩ = (none, ⟨fs, some 0, false⟩) := by
  simp [previousFile, hne]

theorem previousFile_at_zero_wrap (fs : List String) (hne : fs.isEmpty = false) :
    previousFile ⟨fs, some 0, true⟩ =
      (fs[fs.length - 1]?, ⟨fs, some (fs.length - 1), true⟩) := by
  simp [previousFile, hne, currentFile]

theorem previousFile_step (fs : List String) (l : Bool) (j : Nat)
    (hne : fs.isEmpty = false) (hj : j ≠ 0) :
    previousFile ⟨fs, some j, l⟩ = (fs[j - 1]?, ⟨fs, some (j - 1), l⟩) := by
  simp [previousFile, hne, hj, currentFile]

theorem isEmpty_false_of_ne_nil {fs : List String} (hne : fs ≠ []) :
    fs.isEmpty = false := by
  cases fs with
  | nil => exact absurd rfl hne
  | cons x xs => rfl

theorem length_pos_of_isEmpty_false {fs : List String} (hne : fs.isEmpty = false) :
    0 < fs.length := by
  cases fs with
  | nil => simp at hne
  | cons x xs => simp

/-- Closed form for the state reached after `k ≥ 1` `next_file` calls on a
fresh non-looping playlist: the cursor walks `0, 1, …` and then freezes at
the last index. -/
theorem stepNext_closed (fs : List String) (hne : fs.isEmpty = false) :
    ∀ k, 1 ≤ k →
      stepNext ⟨fs, none, false⟩ k = ⟨fs, some (min k fs.length - 1), false⟩ := by
  have hlen : 0 < fs.length := length_pos_of_isEmpty_false hne
  intro k hk
  induction k with
  | zero => omega
  | succ n ih =>
    by_cases h0 : n = 0
    · subst h0
      rw [show stepNext ⟨fs, none, false⟩ 1 = (nextFile ⟨fs, none, false⟩).2 from rfl,
        nextFile_start fs false hne, show min 1 fs.length - 1 = 0 from by omega]
    · have hge1 : 1 ≤ n := by omega
      rw [stepNext, ih hge1]
      by_cases hnl : n < fs.length
      · have hmin : min n fs.length - 1 = n - 1 := by omega
        rw [hmin, nextFile_advance fs false (n - 1) hne (by omega),
          show n - 1 + 1 = min (n + 1) fs.length - 1 from by omega]
      · have hmin : min n fs.length - 1 = fs.length - 1 := by omega
        rw [hmin, nextFile_end_noloop fs (fs.length - 1) hne (by omega),
          show min (n + 1) fs.length - 1 = fs.length - 1 from by omega]

/-! ## C2 — playlist navigation -/

/-- C2: on a fresh playlist over a nonempty file list with looping
disabled, the k-th `next_file` call (0-based `k`) returns entry `k` for
`k < n`, and every call from the n-th on returns `none` with the cursor
frozen at the last index; with looping enabled, the call made at the last
index wraps and returns entry 0.  Symmetrically, a first `previous_file`
call moves the cursor to the last index and returns its entry, and
`previous_file` at index 0 returns `none` when not looping and wraps to
the last entry when looping. -/
theorem playlist_navigation_spec (fs : List String) (hne : fs ≠ []) :
    (∀ k, k < fs.length → (nextFile (stepNext ⟨fs, none, false⟩ k)).1 = fs[k]?) ∧
    (∀ k, fs.length ≤ k → (nextFile (stepNext ⟨fs, none, false⟩ k)).1 = none ∧
      (stepNext ⟨fs, none, false⟩ k).current_index = some (fs.length - 1)) ∧
    (nextFile ⟨fs, some (fs.length - 1), true⟩).1 = fs[0]? ∧
    (previousFile ⟨fs, none, false⟩).1 = fs[fs.length - 1]? ∧
    (previousFile ⟨fs, none, false⟩).2.current_index = some (fs.length - 1) ∧
    (previousFile ⟨fs, some 0, false⟩).1 = none ∧
    (previousFile ⟨fs, some 0, true⟩).1 = fs[fs.length - 1]? := by
  have hempty : fs.isEmpty = false := isEmpty_false_of_ne_nil hne
  have hlen : 0 < fs.length := length_pos_of_isEmpty_false hempty
  refine ⟨?_, ?_, ?_, ?_, ?_, ?_, ?_⟩
  · intro k hk
    rcases Nat.eq_zero_or_pos k with h0 | h0
    · subst h0
      rw [show stepNext ⟨fs, none, false⟩ 0 = ⟨fs, none, false⟩ from rfl,
        nextFile_start fs false hempty]
    · rw [stepNext_closed fs hempty k h0,
        show min k fs.length - 1 = k - 1 from by omega,
        nextFile_advance fs false (k - 1) hempty (by omega),
        show k - 1 + 1 = k from by omega]
  · intro k hk
    have h0 : 1 ≤ k := by omega
    rw [stepNext_closed fs hempty k h0,
      show min k fs.length - 1 = fs.length - 1 from by omega]
    exact ⟨by rw [nextFile_end_noloop fs (fs.length - 1) hempty (by omega)], rfl⟩
  · rw [nextFile_wrap fs (fs.length - 1) hempty (by omega)]
  · rw [previousFile_start fs false hempty]
  · rw [previousFile_start fs false hempty]
  · rw [previousFile_at_zero_noloop fs hempty]
  · rw [previousFile_at_zero_wrap fs hempty]

/-- Witness for C2: on `["f0","f1","f2"]`, the second `next_file` call
returns `"f1"`. -/
theorem playlist_navigation_spec_witness :
    (nextFile (stepNext ⟨["f0", "f1", "f2"], none, false⟩ 1)).1 = some "f1" := by
  have h := (playlist_navigation_spec ["f0", "f1", "f2"] (by decide)).1 1 (by decide)
  simpa using h

/-! ## C9 — cursor stays in bounds -/

/-- C9: through any sequence of constructions and operations, the
cursor is `none` or a valid index strictly below the number of files, so
`current_file` never reads out of bounds. -/
theorem playlist_cursor_in_bounds (p : Playlist) (hp : ReachablePlaylist p) :
    ∀ i, p.current_index = some i → i < p.files.length := by
  induction hp with
  | init files l =>
    intro i h
    simp at h
  | add q f hr ih =>
    intro i h
    simp only [addFile] at h ⊢
    have h2 := ih i h
    simp only [List.length_append, List.length_cons, List.length_nil]
    omega
  | next q hr ih =>
    obtain ⟨fs, idx, lp⟩ := q
    intro i h
    rcases he : fs.isEmpty with _ | _
    · have hlen : 0 < fs.length := length_pos_of_isEmpty_false he
      cases idx with
      | none =>
        rw [nextFile_start fs lp he] at h ⊢
        simp at h ⊢
        omega
      | some j =>
        by_cases hj : fs.length ≤ j + 1
        · cases lp with
          | false =>
            rw [nextFile_end_noloop fs j he hj] at h ⊢
            exact ih i h
          | true =>
            rw [nextFile_wrap fs j he hj] at h ⊢
            simp at h ⊢
            omega
        · rw [nextFile_advance fs lp j he (Nat.lt_of_not_le hj)] at h ⊢
          simp at h ⊢
          omega
    · simp only [nextFile, he] at h ⊢
      simp at h ⊢
      exact ih i h
  | prev q hr ih =>
    obtain ⟨fs, idx, lp⟩ := q
    intro i h
    rcases he : fs.isEmpty with _ | _
    · have hlen : 0 < fs.length := length_pos_of_isEmpty_false he
      cases idx with
      | none =>
        rw [previousFile_start fs lp he] at h ⊢
        simp at h ⊢
        omega
      | some j =>
        by_cases hj : j = 0
        · subst hj
          cases lp with
          | false =>
            rw [previousFile_at_zero_noloop fs he] at h ⊢
            exact ih i h
          | true =>
            rw [previousFile_at_zero_wrap fs he] at h ⊢
            simp at h ⊢
            omega
        · rw [previousFile_step fs lp j he hj] at h ⊢
          simp at h ⊢
          have h2 := ih j rfl
          simp at h2
          omega
    · simp only [previousFile, he] at h ⊢
      simp at h ⊢
      exact ih i h
  | reset q hr ih =>
    intro i h
    simp [resetPlaylist] at h
  | setl q b hr ih =>
    intro i h
    simp only [setLoop] at h ⊢
    exact ih i h

/-- Witness for C9: after one `next_file` on a one-entry playlist the
cursor is 0, which is below the length 1. -/
theorem playlist_cursor_in_bounds_witness :
    (0 : Nat) < ((nextFile ⟨["a"], none, false⟩).2).files.length :=
  playlist_cursor_in_bounds _
    (ReachablePlaylist.next _ (ReachablePlaylist.init ["a"] false)) 0 (by decide)

/-! ## C5 — streaming-server construction -/

/-- C5 (amended): for the `src/streaming.rs` constructor, the checks
run in order — an unparsable `host:port` fails with
`NetworkAddressParseError` first; with a parsable address, a missing video
file fails with `MediaFileNotFound`; with the video present, a supplied
but missing subtitle fails with `MediaFileNotFound`; and construction
succeeds when all three pass.  The `src/media/streaming.rs` constructor
performs only the address and subtitle checks: it succeeds even when the
video file does not exist. -/
theorem streaming_server_construction_spec (env : StreamEnv) (video : String)
    (sub : Option String) (host : String) (port : Nat) :
    (env.parseAddr (host ++ ":" ++ Nat.repr port) = none →
      streamingServerNew env video sub host port =
        Except.error (StreamingError.NetworkAddressParseError
          (host ++ ":" ++ Nat.repr port)) ∧
      mediaStreamingServerNew env video sub host port =
        Except.error (StreamingError.NetworkAddressParseError
          (host ++ ":" ++ Nat.repr port))) ∧
    (∀ a, env.parseAddr (host ++ ":" ++ Nat.repr port) = some a →
      (env.fileExists video = false →
        streamingServerNew env video sub host port =
          Except.error (StreamingError.MediaFileNotFound video
            "Video file does not exist or is not accessible")) ∧
      (∀ sp, sub = some sp → env.fileExists video = true → env.fileExists sp = false →
        streamingServerNew env video sub host port =
          Except.error (StreamingError.MediaFileNotFound sp
            "Subtitle file does not exist or is not accessible")) ∧
      (env.fileExists video = true → (∀ sp ∈ sub, env.fileExists sp = true) →
        (streamingServerNew env video sub host port).isOk = true) ∧
      ((∀ sp ∈ sub, env.fileExists sp = true) →
        (mediaStreamingServerNew env video sub host port).isOk = true)) := by
  constructor
  · intro h
    constructor <;> simp [streamingServerNew, mediaStreamingServerNew, h]
  · intro a ha
    refine ⟨?_, ?_, ?_, ?_⟩
    · intro hv
      simp [streamingServerNew, ha, hv]
    · intro sp hsp hv hs
      subst hsp
      simp [streamingServerNew, ha, hv, hs]
    · intro hv hs
      cases sub with
      | none => simp [streamingServerNew, ha, hv, Except.isOk, Except.toBool]
      | some sp =>
        simp [streamingServerNew, ha, hv, hs sp rfl, Except.isOk, Except.toBool]
    · intro hs
      cases sub with
      | none => simp [mediaStreamingServerNew, ha, Except.isOk, Except.toBool]
      | some sp =>
        simp [mediaStreamingServerNew, ha, hs sp rfl, Except.isOk, Except.toBool]

/-- Witness for C5 (amended): with a parsing address and a missing video
file, the `src/streaming.rs` constructor fails with `MediaFileNotFound`. -/
theorem streaming_server_construction_spec_witness :
    streamingServerNew missingFilesEnv "v.mp4" none "127.0.0.1" 9000 =
      Except.error (StreamingError.MediaFileNotFound "v.mp4"
        "Video file does not exist or is not accessible") :=
  ((streaming_server_construction_spec missingFilesEnv "v.mp4" none "127.0.0.1"
    9000).2 "127.0.0.1:9000" rfl).1 rfl

/-- Counterexample for C5 as stated: the `src/media/streaming.rs`
constructor succeeds on a video path that does not exist (no
`MediaFileNotFound` is raised), because it never checks the video file. -/
theorem streaming_server_construction_counterexample :
    missingFilesEnv.fileExists "missing.mp4" = false ∧
    (mediaStreamingServerNew missingFilesEnv "missing.mp4" none "127.0.0.1"
      9000).isOk = true :=
  ⟨rfl, rfl⟩

/-! ## C6 — MIME type accessors -/

/-- The extensions of the fixed MIME table in `get_mime_type_from_path`. -/
def mimeKnownExtensions : List String :=
  ["mp4", "avi", "mkv", "mov", "wmv", "flv", "webm", "m4v", "3gp",
    "mp3", "wav", "flac", "aac", "ogg", "m4a"]

/-- C6 (amended): the `src/media/streaming.rs` accessors derive MIME
types from the fixed extension table — `.mp4` gives `video/mp4`, `.mp3`
gives `audio/mpeg`, any extension outside the table (and a missing
extension) gives `application/octet-stream`, and an SRT subtitle gives
`text/srt`.  The `src/streaming.rs` accessors do not return MIME types:
`video_type` returns the bare extension (`"mp4"`) and `subtitle_type`
returns the subtitle extension (`"srt"`). -/
theorem mime_type_accessors_spec :
    media_video_type (some "mp4") = "video/mp4" ∧
    media_video_type (some "mp3") = "audio/mpeg" ∧
    media_video_type none = "application/octet-stream" ∧
    (∀ ext : String, toLowerStr ext ∉ mimeKnownExtensions →
      media_video_type (some ext) = "application/octet-stream") ∧
    media_subtitle_type (some "srt") = "text/srt" ∧
    streaming_video_type (some "mp4") = "mp4" ∧
    streaming_subtitle_type (some "srt") = some "srt" := by
  refine ⟨by decide, by decide, rfl, ?_, by decide, rfl, by decide⟩
  intro ext h
  unfold media_video_type get_mime_type_from_path
  split <;> simp_all [mimeKnownExtensions]

/-- Witness for C6 (amended): an extension outside the table falls back to
`application/octet-stream`. -/
theorem mime_type_accessors_spec_witness :
    media_video_type (some "xyz") = "application/octet-stream" :=
  mime_type_accessors_spec.2.2.2.1 "xyz" (by decide)

/-- Counterexample for C6 as stated: `video_type` in `src/streaming.rs` on
an `.mp4` file does not return the MIME type `video/mp4`. -/
theorem mime_type_counterexample :
    streaming_video_type (some "mp4") ≠ "video/mp4" := by
  decide

/-! ## C7 — URL-segment sanitizer -/

/-- C7 (amended): the sanitizer is a deterministic function of the
filename, but it is not collision-free: two distinct filenames (for
example, names differing only in letter case) can map to the same URL
segment, so a video and subtitle entry of one session are not guaranteed
distinct routes. -/
theorem sanitize_deterministic_not_injective :
    (∀ s t : String, s = t →
      sanitize_filename_for_url s = sanitize_filename_for_url t) ∧
    ∃ s t : String, s ≠ t ∧
      sanitize_filename_for_url s = sanitize_filename_for_url t :=
  ⟨fun s t h => by rw [h], ⟨"A.mp4", "a.mp4", by decide, by decide⟩⟩

/-- Witness for C7 (amended): determinism applied at a concrete
filename. -/
theorem sanitize_deterministic_not_injective_witness :
    sanitize_filename_for_url "movie.mp4" = sanitize_filename_for_url "movie.mp4" :=
  sanitize_deterministic_not_injective.1 "movie.mp4" "movie.mp4" rfl

/-- Counterexample for C7 as stated: `"A.mp4"` and `"a.mp4"` are distinct
filenames with the same sanitized URL segment. -/
theorem sanitize_collision_counterexample :
    sanitize_filename_for_url "A.mp4" = sanitize_filename_for_url "a.mp4" ∧
    ("A.mp4" : String) ≠ "a.mp4" := by
  constructor <;> decide

end CrabDlna
